import Mathlib

/-!
Shallow embedding of the NextUp multi-timer core (src/src/App.jsx):
the timer data model, the time projection `computeDisplayMs`, the keypad
parser `parseKeypadDigitsToHms`, and the Timer Store transitions
(`pauseTimer`, `clearTimer`, `startSelectedTimer`, `setModeForSelectedTimer`,
`deleteTimer`) together with the auto-stop watchdog step.

Timestamps and millisecond durations are modelled as `Int` (the source uses
JS numbers that stay within exact-integer range for epoch-millisecond
arithmetic).  Wall-clock calendar arithmetic (`new Date`, `setHours`,
`setDate(+1)`) is modelled for a fixed-offset local timezone without DST,
with the timezone offset (milliseconds east of UTC) an explicit parameter
and `now` threaded explicitly where the source samples `Date.now()`.
-/

namespace NextUp

/-- Timer modes, from the `TimerMode` object in the source. -/
inductive TimerMode
  | CountUp
  | CountDown
  | CountTo
deriving DecidableEq, Repr

/-- A timer entity, from `makeTimer` in the source. -/
structure Timer where
  id : String
  label : String
  mode : TimerMode
  running : Bool
  startEpochMs : Option Int
  baseMs : Int
  countdownInitialMs : Int
  countToTargetEpochMs : Option Int
deriving DecidableEq, Repr

/-- Source `clamp(n, min, max) = Math.min(max, Math.max(min, n))`. -/
def clamp (n mn mx : Int) : Int :=
  min mx (max mn n)

/-- Parsed keypad triple, the value of `parseKeypadDigitsToHms`. -/
structure Hms where
  h : Int
  m : Int
  s : Int
deriving DecidableEq, Repr

/-- Numeric value of a decimal digit character (the source only ever feeds
digit characters after its regex filter). -/
def digitVal (c : Char) : Int :=
  ((c.toNat - 48 : Nat) : Int)

/-- Source `parseKeypadDigitsToHms`: strip non-digits, keep the last six
characters (`slice(-6)`), left-pad with zeros to six (`padStart(6, '0')`),
read 2-character slices as numbers, and clamp h to [0,99], m and s to
[0,59]. -/
def parseKeypadDigitsToHms (digits : List Char) : Hms :=
  let d := digits.filter Char.isDigit
  let d6 := d.drop (d.length - 6)
  let padded := List.replicate (6 - d6.length) '0' ++ d6
  let h := 10 * digitVal (padded.getD 0 '0') + digitVal (padded.getD 1 '0')
  let m := 10 * digitVal (padded.getD 2 '0') + digitVal (padded.getD 3 '0')
  let s := 10 * digitVal (padded.getD 4 '0') + digitVal (padded.getD 5 '0')
  { h := clamp h 0 99, m := clamp m 0 59, s := clamp s 0 59 }

/-- Source `hmsToMs`. -/
def hmsToMs (x : Hms) : Int :=
  ((x.h * 60 + x.m) * 60 + x.s) * 1000

/-- Milliseconds in a calendar day (no DST in the modelled timezone). -/
def DAY_MS : Int := 86400000

/-- Start of the local calendar day containing the instant `now`, for a
fixed timezone offset `tz` (ms east of UTC).  This is what `new Date(now)`
followed by `setHours(0,0,0,0)` yields in such a timezone. -/
def localDayStart (tz now : Int) : Int :=
  now - (now + tz) % DAY_MS

/-- Source `getTodayTargetEpochMs`, with the clock read `new Date()`
made an explicit `now` parameter and calendar arithmetic modelled for a
fixed-offset timezone: `setHours(h, m, s, 0)` lands on the local day start
plus the h:m:s duration, and `setDate(getDate() + 1)` adds one day. -/
def getTodayTargetEpochMs (tz : Int) (x : Hms) (now : Int) : Int :=
  let target := localDayStart tz now + hmsToMs x
  if target ≤ now then target + DAY_MS else target

/-- Source `makeTimer`. -/
def makeTimer (id label : String) : Timer :=
  { id := id
    label := label
    mode := .CountUp
    running := false
    startEpochMs := none
    baseMs := 0
    countdownInitialMs := 0
    countToTargetEpochMs := none }

/-- Source `computeDisplayMs(timer, nowEpochMs, allowNegativeTime)`. -/
def computeDisplayMs (timer : Timer) (nowEpochMs : Int) (allowNegativeTime : Bool) : Int :=
  let elapsedRaw :=
    match timer.startEpochMs with
    | some s => if timer.running then nowEpochMs - s else 0
    | none => 0
  let elapsed := max 0 elapsedRaw
  let currentBaseMs := timer.baseMs + elapsed
  match timer.mode with
  | .CountUp => currentBaseMs
  | .CountDown =>
      let remaining := timer.countdownInitialMs - currentBaseMs
      if allowNegativeTime then remaining else max 0 remaining
  | .CountTo =>
      match timer.countToTargetEpochMs with
      | none => 0
      | some target =>
          let remaining := if timer.running then target - nowEpochMs else timer.baseMs
          if allowNegativeTime then remaining else max 0 remaining

/-- Per-timer updater of source `pauseTimer` (the body passed to
`updateTimer`), with `Date.now()` made explicit. -/
def pauseTimerUpdate (now : Int) (t : Timer) : Timer :=
  if !t.running then t
  else
    let elapsed :=
      match t.startEpochMs with
      | some s => now - s
      | none => 0
    { t with running := false, startEpochMs := none, baseMs := t.baseMs + elapsed }

/-- Per-timer updater of source `clearTimer`: the `clearBehavior` string
selects between keeping and resetting the target fields. -/
def clearTimerUpdate (clearBehavior : String) (t : Timer) : Timer :=
  if clearBehavior == "keepTarget" then
    { t with running := false, startEpochMs := none, baseMs := 0 }
  else
    { t with running := false, startEpochMs := none, baseMs := 0
             countdownInitialMs := 0, countToTargetEpochMs := none }

/-- Per-timer body of source `startSelectedTimer` for the selected timer:
`hms` is the parsed keypad buffer (`none` when the buffer is empty), `now`
is the `Date.now()` sample, and `tz` the modelled timezone offset used by
`getTodayTargetEpochMs`. -/
def startTimerUpdate (now : Int) (hms : Option Hms) (allowNegativeTime : Bool)
    (tz : Int) (t : Timer) : Timer :=
  if t.running then t
  else
    let next := t
    let next :=
      match hms with
      | none => next
      | some hmsv =>
          let ms := hmsToMs hmsv
          match next.mode with
          | .CountUp =>
              { next with running := false, startEpochMs := none, baseMs := ms }
          | .CountDown =>
              { next with running := false, startEpochMs := none, baseMs := 0
                          countdownInitialMs := ms }
          | .CountTo =>
              let targetEpochMs := getTodayTargetEpochMs tz hmsv now
              let remaining := targetEpochMs - now
              { next with running := false, startEpochMs := none
                          baseMs := if allowNegativeTime then remaining else max 0 remaining
                          countToTargetEpochMs := some targetEpochMs }
    let next :=
      if next.mode = .CountTo then
        match next.countToTargetEpochMs with
        | some target =>
            let remaining := target - now
            { next with baseMs := if allowNegativeTime then remaining else max 0 remaining }
        | none => next
      else next
    { next with running := true, startEpochMs := some now }

/-- Per-timer updater of source `setModeForSelectedTimer`. -/
def setModeUpdate (mode : TimerMode) (now : Int) (t : Timer) : Timer :=
  let wasRunning := t.running
  let elapsed :=
    match t.startEpochMs with
    | some s => if wasRunning then now - s else 0
    | none => 0
  let nextBaseMs := if wasRunning then t.baseMs + elapsed else t.baseMs
  { t with mode := mode, running := false, startEpochMs := none
           baseMs := if mode = .CountUp then nextBaseMs else 0 }

/-- One timer's step of the auto-stop watchdog `useEffect` (the per-timer
body of the `prev.map`, which only runs when negative time is disallowed),
with `Date.now()` made explicit. -/
def watchdogUpdate (now : Int) (t : Timer) : Timer :=
  if !t.running then t
  else
    match t.mode with
    | .CountDown =>
        let ms := computeDisplayMs t now false
        if ms > 0 then t
        else { t with running := false, startEpochMs := none, baseMs := t.countdownInitialMs }
    | .CountTo =>
        match t.countToTargetEpochMs with
        | none => t
        | some target =>
            let remaining := target - now
            if remaining > 0 then t
            else { t with running := false, startEpochMs := none, baseMs := 0 }
    | .CountUp => t

/-- The core in-memory application state touched by the claims: the timer
list, the selection, the global keypad buffer, and the two options. -/
structure AppState where
  timers : List Timer
  selectedTimerId : String
  keypadDigits : List Char
  clearBehavior : String
  allowNegativeTime : Bool
deriving DecidableEq, Repr

/-- Source `updateTimer(timerId, updater)`. -/
def updateTimer (s : AppState) (timerId : String) (updater : Timer → Timer) : AppState :=
  { s with timers := s.timers.map fun t => if t.id = timerId then updater t else t }

/-- Source `clearTimer(timerId)` at state level: applies the per-timer
clear and empties the keypad buffer. -/
def clearTimerState (s : AppState) (timerId : String) : AppState :=
  let s := updateTimer s timerId (clearTimerUpdate s.clearBehavior)
  { s with keypadDigits := [] }

/-- Source `deleteTimer(timerId)`: no-op on the last timer or on an absent
id; otherwise removes all timers with that id and, if the selected timer
was removed, reselects the first remaining timer (when its id is a truthy
string). -/
def deleteTimer (s : AppState) (timerId : String) : AppState :=
  if s.timers.length ≤ 1 then s
  else if (s.timers.filter fun t => t.id ≠ timerId).length = s.timers.length then s
  else
    { s with
      timers := s.timers.filter fun t => t.id ≠ timerId
      selectedTimerId :=
        if s.selectedTimerId = timerId then
          match (s.timers.filter fun t => t.id ≠ timerId).head? with
          | some t0 => if t0.id ≠ "" then t0.id else s.selectedTimerId
          | none => s.selectedTimerId
        else s.selectedTimerId }

/-! ## Shared concrete timers used by witnesses and counterexamples -/

/-- A running CountUp timer with `startEpochMs = 100` and `baseMs = 50`. -/
def tUpRunning : Timer :=
  { makeTimer "T1" "Timer 1" with running := true, startEpochMs := some 100, baseMs := 50 }

/-- Basic bounds of `clamp`. -/
theorem clamp_mem (n mn mx : Int) (h : mn ≤ mx) :
    mn ≤ clamp n mn mx ∧ clamp n mn mx ≤ mx := by
  unfold clamp
  exact ⟨le_min h (le_max_left mn n), min_le_left mx _⟩

/-! ## C1 — pause semantics -/

/-- C1 counterexample: the claim says the banked increment is clamped at
zero so `baseMs` never decreases, but pausing `tUpRunning`
(startEpochMs = 100, baseMs = 50) at `now = 0` yields `baseMs = -50`:
the code banks the raw `now - startEpochMs` without a clamp. -/
theorem pause_no_clamp_counterexample :
    (pauseTimerUpdate 0 tUpRunning).baseMs = -50 ∧
    (pauseTimerUpdate 0 tUpRunning).baseMs < tUpRunning.baseMs := by
  constructor
  · rfl
  · decide

/-- C1 (amended): pause is a no-op if the timer is not running; otherwise
it sets `running := false`, `startEpochMs := none`, and increases `baseMs`
by exactly `now - startEpochMs`, unclamped (so `baseMs` decreases when
`now < startEpochMs`), with all other fields unchanged. -/
theorem pause_banks_raw_elapsed (t : Timer) (now : Int) :
    (t.running = false → pauseTimerUpdate now t = t) ∧
    (∀ s, t.running = true → t.startEpochMs = some s →
      pauseTimerUpdate now t =
        { t with running := false, startEpochMs := none, baseMs := t.baseMs + (now - s) }) := by
  constructor
  · intro h
    simp [pauseTimerUpdate, h]
  · intro s hrun hs
    simp [pauseTimerUpdate, hrun, hs]

/-- C1 witness: the amended pause law evaluated on `tUpRunning` at `now = 0`. -/
theorem pause_banks_raw_elapsed_witness :
    pauseTimerUpdate 0 tUpRunning =
      { tUpRunning with running := false, startEpochMs := none
                        baseMs := tUpRunning.baseMs + (0 - 100) } :=
  (pause_banks_raw_elapsed tUpRunning 0).2 100 rfl rfl

/-! ## C8 — keypad parser -/

/-- C8: the parser left-pads the (digit-filtered, last-six) buffer to six
digits, splits HH/MM/SS, and clamps h to [0,99] and m, s to [0,59] by
saturation with no carry of overflow digits; in particular "915" parses to
0:09:15, "999999" to 99:59:59, and "75" saturates s at 59 without carrying
into m. -/
theorem parseKeypad_pads_splits_clamps :
    (∀ buf : List Char,
        0 ≤ (parseKeypadDigitsToHms buf).h ∧ (parseKeypadDigitsToHms buf).h ≤ 99 ∧
        0 ≤ (parseKeypadDigitsToHms buf).m ∧ (parseKeypadDigitsToHms buf).m ≤ 59 ∧
        0 ≤ (parseKeypadDigitsToHms buf).s ∧ (parseKeypadDigitsToHms buf).s ≤ 59) ∧
    parseKeypadDigitsToHms ['9', '1', '5'] = ⟨0, 9, 15⟩ ∧
    parseKeypadDigitsToHms ['9', '9', '9', '9', '9', '9'] = ⟨99, 59, 59⟩ ∧
    parseKeypadDigitsToHms ['7', '5'] = ⟨0, 0, 59⟩ := by
  refine ⟨fun buf => ?_, by decide, by decide, by decide⟩
  simp only [parseKeypadDigitsToHms]
  refine ⟨(clamp_mem _ 0 99 (by norm_num)).1, (clamp_mem _ 0 99 (by norm_num)).2,
          (clamp_mem _ 0 59 (by norm_num)).1, (clamp_mem _ 0 59 (by norm_num)).2,
          (clamp_mem _ 0 59 (by norm_num)).1, (clamp_mem _ 0 59 (by norm_num)).2⟩

/-! ## C5 — setMode semantics -/

/-- Switching mode never touches the two target fields. -/
theorem setModeUpdate_preserves_targets (mode : TimerMode) (now : Int) (t : Timer) :
    (setModeUpdate mode now t).countdownInitialMs = t.countdownInitialMs ∧
    (setModeUpdate mode now t).countToTargetEpochMs = t.countToTargetEpochMs := by
  simp [setModeUpdate]

/-- The target fields survive any sequence of mode switches. -/
theorem foldl_setMode_preserves_targets (ops : List (TimerMode × Int)) (t : Timer) :
    (ops.foldl (fun acc p => setModeUpdate p.1 p.2 acc) t).countdownInitialMs
        = t.countdownInitialMs ∧
    (ops.foldl (fun acc p => setModeUpdate p.1 p.2 acc) t).countToTargetEpochMs
        = t.countToTargetEpochMs := by
  induction ops generalizing t with
  | nil => exact ⟨rfl, rfl⟩
  | cons p rest ih =>
      simp only [List.foldl_cons]
      have h := setModeUpdate_preserves_targets p.1 p.2 t
      have h2 := ih (setModeUpdate p.1 p.2 t)
      exact ⟨h2.1.trans h.1, h2.2.trans h.2⟩

/-- C5: setMode on a running timer banks `now - startEpochMs` into `baseMs`
and then discards the result (sets it to 0) unless the new mode is CountUp,
in which case the banked value is kept; it always ends with
`running = false` and `startEpochMs = none`; and it never changes
`countdownInitialMs` or `countToTargetEpochMs`, which therefore survive any
sequence of mode switches. -/
theorem setMode_banks_then_discards (t : Timer) (mode : TimerMode) (now : Int) :
    (∀ s, t.running = true → t.startEpochMs = some s →
      setModeUpdate mode now t =
        { t with mode := mode, running := false, startEpochMs := none
                 baseMs := if mode = .CountUp then t.baseMs + (now - s) else 0 }) ∧
    (setModeUpdate mode now t).running = false ∧
    (setModeUpdate mode now t).startEpochMs = none ∧
    (setModeUpdate mode now t).countdownInitialMs = t.countdownInitialMs ∧
    (setModeUpdate mode now t).countToTargetEpochMs = t.countToTargetEpochMs ∧
    (∀ ops : List (TimerMode × Int),
      (ops.foldl (fun acc p => setModeUpdate p.1 p.2 acc) t).countdownInitialMs
          = t.countdownInitialMs ∧
      (ops.foldl (fun acc p => setModeUpdate p.1 p.2 acc) t).countToTargetEpochMs
          = t.countToTargetEpochMs) := by
  refine ⟨?_, by simp [setModeUpdate], by simp [setModeUpdate],
          (setModeUpdate_preserves_targets mode now t).1,
          (setModeUpdate_preserves_targets mode now t).2,
          fun ops => foldl_setMode_preserves_targets ops t⟩
  intro s hrun hs
  simp [setModeUpdate, hrun, hs]

/-! ## C6 — CountTo projection -/

/-- A paused CountTo timer with target 5000 and `baseMs = 700`. -/
def tToPaused : Timer :=
  { makeTimer "T2" "Timer 2" with mode := .CountTo, baseMs := 700
                                  countToTargetEpochMs := some 5000 }

/-- A running CountTo timer with target 5000, started at 1000. -/
def tToRunning : Timer :=
  { tToPaused with running := true, startEpochMs := some 1000 }

/-- C6: the CountTo projection returns 0 when no target is set; while
running it returns `countToTargetEpochMs - now` (ignoring `baseMs`), and
while paused it returns `baseMs`, both clamped to be non-negative unless
`allowNegative` is on. -/
theorem countTo_display (t : Timer) (now : Int) (allowNeg : Bool)
    (h : t.mode = .CountTo) :
    (t.countToTargetEpochMs = none → computeDisplayMs t now allowNeg = 0) ∧
    (∀ tgt, t.countToTargetEpochMs = some tgt → t.running = true →
      computeDisplayMs t now allowNeg =
        (if allowNeg then tgt - now else max 0 (tgt - now))) ∧
    (∀ tgt, t.countToTargetEpochMs = some tgt → t.running = false →
      computeDisplayMs t now allowNeg =
        (if allowNeg then t.baseMs else max 0 t.baseMs)) := by
  refine ⟨fun hn => ?_, fun tgt htgt hrun => ?_, fun tgt htgt hrun => ?_⟩
  · simp [computeDisplayMs, h, hn]
  · simp [computeDisplayMs, h, htgt, hrun]
  · simp [computeDisplayMs, h, htgt, hrun]

/-- C6 witness: the CountTo projection evaluated on a concrete running
timer (display is `max 0 (5000 - 2000)`) at `now = 2000`. -/
theorem countTo_display_witness :
    computeDisplayMs tToRunning 2000 false =
      (if false then (5000 : Int) - 2000 else max 0 ((5000 : Int) - 2000)) :=
  (countTo_display tToRunning 2000 false rfl).2.1 5000 rfl rfl

/-! ## C7 — clear semantics -/

/-- C7: clear with the keepTarget policy resets the running state and
`baseMs` while leaving the target fields (and mode, label, id) unchanged;
with resetAll it additionally zeroes `countdownInitialMs` and nulls
`countToTargetEpochMs`; in both cases the global keypad buffer is emptied. -/
theorem clear_policies (t : Timer) (s : AppState) (timerId : String) :
    clearTimerUpdate "keepTarget" t =
      { t with running := false, startEpochMs := none, baseMs := 0 } ∧
    clearTimerUpdate "resetAll" t =
      { t with running := false, startEpochMs := none, baseMs := 0
               countdownInitialMs := 0, countToTargetEpochMs := none } ∧
    (clearTimerState s timerId).keypadDigits = [] := by
  refine ⟨by simp [clearTimerUpdate], by simp [clearTimerUpdate], rfl⟩

/-! ## C3 — auto-stop watchdog for CountDown -/

/-- C3: with negative time disallowed, a CountDown display is never below
zero; a watchdog step stops a running CountDown timer (running := false,
startEpochMs := none, baseMs := countdownInitialMs) exactly when the
clamped display equals 0; and a watchdog step never changes a CountUp
timer or a non-running timer. -/
theorem countdown_watchdog (t : Timer) (now : Int) :
    (t.mode = .CountDown → 0 ≤ computeDisplayMs t now false) ∧
    (t.mode = .CountDown → t.running = true →
      ((computeDisplayMs t now false = 0 →
          watchdogUpdate now t =
            { t with running := false, startEpochMs := none
                     baseMs := t.countdownInitialMs }) ∧
       (computeDisplayMs t now false ≠ 0 → watchdogUpdate now t = t))) ∧
    (t.mode = .CountUp → watchdogUpdate now t = t) ∧
    (t.running = false → watchdogUpdate now t = t) := by
  have hnonneg : t.mode = .CountDown → 0 ≤ computeDisplayMs t now false := by
    intro h
    simp only [computeDisplayMs, h]
    exact le_max_left 0 _
  refine ⟨hnonneg, fun hmode hrun => ⟨fun h0 => ?_, fun hne => ?_⟩,
          fun hmode => ?_, fun hrun => ?_⟩
  · simp [watchdogUpdate, hmode, hrun, h0]
  · have hpos : 0 < computeDisplayMs t now false :=
      lt_of_le_of_ne (hnonneg hmode) (Ne.symm hne)
    simp [watchdogUpdate, hmode, hrun, hpos]
  · cases hr : t.running <;> simp [watchdogUpdate, hmode, hr]
  · simp [watchdogUpdate, hrun]

/-! ## C9 — deleting the last timer is a no-op -/

/-- C9: when exactly one timer remains, deleteTimer returns the state
unchanged (list and selection intact); and with distinct timer ids
deleteTimer never empties the timer list. -/
theorem deleteTimer_last_noop (s : AppState) (timerId : String) :
    (s.timers.length = 1 → deleteTimer s timerId = s) ∧
    (s.timers ≠ [] → (s.timers.map Timer.id).Nodup →
      (deleteTimer s timerId).timers ≠ []) := by
  constructor
  · intro h
    simp [deleteTimer, h]
  · intro hne hnodup
    unfold deleteTimer
    by_cases h1 : s.timers.length ≤ 1
    · rw [if_pos h1]; exact hne
    · rw [if_neg h1]
      by_cases h2 : (s.timers.filter fun t => t.id ≠ timerId).length = s.timers.length
      · rw [if_pos h2]; exact hne
      · rw [if_neg h2]
        show (s.timers.filter fun t => t.id ≠ timerId) ≠ []
        intro hnil
        have hall : ∀ t ∈ s.timers, t.id = timerId := by
          intro t ht
          have h := List.filter_eq_nil_iff.mp hnil t ht
          simpa using h
        have hrep : s.timers.map Timer.id =
            List.replicate (s.timers.map Timer.id).length timerId := by
          apply List.eq_replicate_of_mem
          intro b hb
          obtain ⟨t, ht, rfl⟩ := List.mem_map.mp hb
          exact hall t ht
        rw [hrep, List.nodup_replicate] at hnodup
        simp only [List.length_map] at hnodup
        have : 2 ≤ s.timers.length := by omega
        have hlen0 : (s.timers.filter fun t => t.id ≠ timerId).length = 0 := by
          rw [hnil]; rfl
        omega

/-! ## C10 — deleting a non-selected timer -/

/-- On a state with more than one timer and a non-selected target id,
deleteTimer filters out the timers with that id and keeps everything else. -/
theorem deleteTimer_eq_filter (s : AppState) (timerId : String)
    (hlen : 1 < s.timers.length) (hsel : timerId ≠ s.selectedTimerId) :
    deleteTimer s timerId =
      { s with timers := s.timers.filter fun t => t.id ≠ timerId } := by
  unfold deleteTimer
  have h1 : ¬s.timers.length ≤ 1 := by omega
  rw [if_neg h1]
  by_cases h2 : (s.timers.filter fun t => t.id ≠ timerId).length = s.timers.length
  · have heq : (s.timers.filter fun t => t.id ≠ timerId) = s.timers :=
      (List.filter_sublist s.timers).eq_of_length h2
    rw [if_pos h2, heq]
  · have hsel2 : ¬s.selectedTimerId = timerId := fun h => hsel h.symm
    rw [if_neg h2, if_neg hsel2]

/-- With pairwise distinct ids, filtering away one present id drops exactly
one element. -/
theorem length_filter_ne_id (l : List Timer) (i : String)
    (hnd : (l.map Timer.id).Nodup) (t0 : Timer) (h0 : t0 ∈ l) (hid : t0.id = i) :
    (l.filter fun t => t.id ≠ i).length + 1 = l.length := by
  induction l with
  | nil => cases h0
  | cons a rest ih =>
      simp only [List.map_cons, List.nodup_cons] at hnd
      obtain ⟨hna, hndr⟩ := hnd
      rw [List.filter_cons]
      by_cases ha : a.id = i
      · have hrest : ∀ t ∈ rest, t.id ≠ i := by
          intro t ht hti
          exact hna (ha ▸ hti ▸ List.mem_map_of_mem Timer.id ht)
        have hfr : (rest.filter fun t => t.id ≠ i) = rest :=
          List.filter_eq_self.mpr (fun t ht => decide_eq_true (hrest t ht))
        have hcond : ¬((fun t : Timer => decide (t.id ≠ i)) a = true) := by
          simp [ha]
        rw [if_neg hcond, hfr, List.length_cons]
      · have h0r : t0 ∈ rest := by
          rcases List.mem_cons.mp h0 with h | h
          · exact absurd (h ▸ hid) ha
          · exact h
        have hih := ih hndr h0r
        have hcond : ((fun t : Timer => decide (t.id ≠ i)) a = true) := by
          simp [ha]
        rw [if_pos hcond, List.length_cons, List.length_cons]
        omega

/-- C10: deleting a non-selected id from a state with more than one timer
keeps the selection and all other state fields, replaces the timer list by
the order-preserving filter that drops the timers with that id (exactly
one timer when ids are distinct and the id is present), and leaves the
whole state unchanged when no timer has that id. -/
theorem deleteTimer_nonselected (s : AppState) (timerId : String)
    (hlen : 1 < s.timers.length) (hsel : timerId ≠ s.selectedTimerId) :
    (deleteTimer s timerId).selectedTimerId = s.selectedTimerId ∧
    (deleteTimer s timerId).timers = s.timers.filter (fun t => t.id ≠ timerId) ∧
    ((∀ t ∈ s.timers, t.id ≠ timerId) → deleteTimer s timerId = s) ∧
    (deleteTimer s timerId).keypadDigits = s.keypadDigits ∧
    (deleteTimer s timerId).clearBehavior = s.clearBehavior ∧
    (deleteTimer s timerId).allowNegativeTime = s.allowNegativeTime ∧
    ((s.timers.map Timer.id).Nodup → ∀ t0 ∈ s.timers, t0.id = timerId →
      (deleteTimer s timerId).timers.length + 1 = s.timers.length) := by
  have hmaster := deleteTimer_eq_filter s timerId hlen hsel
  rw [hmaster]
  refine ⟨rfl, rfl, fun hall => ?_, rfl, rfl, rfl, fun hnd t0 ht hid => ?_⟩
  · have heq : (s.timers.filter fun t => t.id ≠ timerId) = s.timers :=
      List.filter_eq_self.mpr (by intro t ht; simpa using hall t ht)
    rw [heq]
  · exact length_filter_ne_id s.timers timerId hnd t0 ht hid

/-- A concrete two-timer state with the first timer selected. -/
def sTwo : AppState :=
  { timers := [makeTimer "T1" "Timer 1", makeTimer "T2" "Timer 2"]
    selectedTimerId := "T1"
    keypadDigits := []
    clearBehavior := "resetAll"
    allowNegativeTime := false }

/-- C10 witness: deleting the non-selected timer T2 from the concrete
two-timer state keeps the selection and filters the list. -/
theorem deleteTimer_nonselected_witness :
    (deleteTimer sTwo "T2").selectedTimerId = sTwo.selectedTimerId ∧
    (deleteTimer sTwo "T2").timers = sTwo.timers.filter (fun t => t.id ≠ "T2") :=
  ⟨(deleteTimer_nonselected sTwo "T2" (by decide) (by decide)).1,
   (deleteTimer_nonselected sTwo "T2" (by decide) (by decide)).2.1⟩

/-! ## C2 — starting a CountTo timer -/

/-- The typed 13:00:00 target. -/
def hms1300 : Hms := ⟨13, 0, 0⟩

/-- A CountTo timer with no target set. -/
def tToUnset : Timer := { makeTimer "T3" "Timer 3" with mode := .CountTo }

/-- C2: starting a non-running CountTo timer with typed digits stores
`getTodayTargetEpochMs` as the target — today's occurrence of the typed
time-of-day, shifted one day forward exactly when that occurrence is not
strictly in the future — and on every start with a target set (typed or
pre-existing) `baseMs` is recomputed as `target - now`, clamped to be
non-negative unless `allowNegative`, before `running := true` and
`startEpochMs := now` are set. -/
theorem countTo_start (t : Timer) (now tz : Int) (allowNeg : Bool) (hms : Hms)
    (hmode : t.mode = .CountTo) (hrun : t.running = false) :
    startTimerUpdate now (some hms) allowNeg tz t =
      { t with running := true, startEpochMs := some now
               countToTargetEpochMs := some (getTodayTargetEpochMs tz hms now)
               baseMs :=
                 if allowNeg then getTodayTargetEpochMs tz hms now - now
                 else max 0 (getTodayTargetEpochMs tz hms now - now) } ∧
    (localDayStart tz now + hmsToMs hms ≤ now →
      getTodayTargetEpochMs tz hms now = localDayStart tz now + hmsToMs hms + DAY_MS) ∧
    (now < localDayStart tz now + hmsToMs hms →
      getTodayTargetEpochMs tz hms now = localDayStart tz now + hmsToMs hms) ∧
    (∀ tgt, t.countToTargetEpochMs = some tgt →
      startTimerUpdate now none allowNeg tz t =
        { t with running := true, startEpochMs := some now
                 baseMs := if allowNeg then tgt - now else max 0 (tgt - now) }) := by
  refine ⟨?_, fun h => ?_, fun h => ?_, fun tgt htgt => ?_⟩
  · simp [startTimerUpdate, hrun, hmode]
  · rw [getTodayTargetEpochMs, if_pos h]
  · rw [getTodayTargetEpochMs, if_neg (not_le.mpr h)]
  · simp [startTimerUpdate, hrun, hmode, htgt]

/-- C2 witness: starting the unset CountTo timer at 10:00:00 with typed
13:00:00 (zero timezone offset) stores that target and snapshots the
remaining time; also the target formula at both boundary sides. -/
theorem countTo_start_witness :
    (startTimerUpdate 36000000 (some hms1300) false 0 tToUnset =
      { tToUnset with running := true, startEpochMs := some 36000000
                      countToTargetEpochMs := some (getTodayTargetEpochMs 0 hms1300 36000000)
                      baseMs :=
                        if false then getTodayTargetEpochMs 0 hms1300 36000000 - 36000000
                        else max 0 (getTodayTargetEpochMs 0 hms1300 36000000 - 36000000) }) ∧
    (36000000 < localDayStart 0 36000000 + hmsToMs hms1300 →
      getTodayTargetEpochMs 0 hms1300 36000000 =
        localDayStart 0 36000000 + hmsToMs hms1300) :=
  ⟨(countTo_start tToUnset 36000000 0 false hms1300 rfl rfl).1,
   (countTo_start tToUnset 36000000 0 false hms1300 rfl rfl).2.2.1⟩

/-! ## C4 — pause then immediate restart -/

/-- C4 counterexample: for a running CountUp timer with `startEpochMs = 100`
and `baseMs = 50`, at `now = 0` the original display is 50 (elapsed is
clamped in the projection), but pausing and restarting at 0 banks the raw
negative elapsed, leaving a display of -50. -/
theorem pause_start_display_counterexample :
    computeDisplayMs (startTimerUpdate 0 none false 0 (pauseTimerUpdate 0 tUpRunning)) 0 false ≠
      computeDisplayMs tUpRunning 0 false := by
  decide

/-- C4 (amended): for every running timer whose `startEpochMs` is at most
`now`, pausing at `now` and immediately starting again at the same `now`
with an empty digit buffer leaves `displayMs` at `now` unchanged, in every
mode and for either allowNegative setting. -/
theorem pause_start_preserves_display (t : Timer) (now tz s0 : Int) (allowNeg : Bool)
    (hrun : t.running = true) (hs : t.startEpochMs = some s0) (hle : s0 ≤ now) :
    computeDisplayMs (startTimerUpdate now none allowNeg tz (pauseTimerUpdate now t)) now allowNeg
      = computeDisplayMs t now allowNeg := by
  have ht' : pauseTimerUpdate now t =
      { t with running := false, startEpochMs := none, baseMs := t.baseMs + (now - s0) } := by
    simp [pauseTimerUpdate, hrun, hs]
  rw [ht']
  have hmax : max 0 (now - s0) = now - s0 := max_eq_right (by omega)
  cases hmode : t.mode with
  | CountUp => simp [startTimerUpdate, computeDisplayMs, hmode, hrun, hs, hmax]
  | CountDown => simp [startTimerUpdate, computeDisplayMs, hmode, hrun, hs, hmax]
  | CountTo =>
      cases htgt : t.countToTargetEpochMs with
      | none => simp [startTimerUpdate, computeDisplayMs, hmode, htgt, hrun, hs]
      | some tgt => simp [startTimerUpdate, computeDisplayMs, hmode, htgt, hrun, hs]

/-- C4 witness: the amended pause-start law evaluated on the concrete
running CountTo timer at `now = 2000`. -/
theorem pause_start_preserves_display_witness :
    computeDisplayMs (startTimerUpdate 2000 none false 0 (pauseTimerUpdate 2000 tToRunning)) 2000 false
      = computeDisplayMs tToRunning 2000 false :=
  pause_start_preserves_display tToRunning 2000 0 1000 false rfl rfl (by decide)

end NextUp
